import Mathlib

/-!
Shallow embedding of the `bevy_flycam` controller (`src/lib.rs`).

The source is a small first-person fly-camera controller: it converts mouse
motion deltas into a clamped pitch / unbounded yaw pair composed into a
quaternion, converts held movement keys into a normalized translation delta,
and toggles the cursor grab state on a key-press edge.  Floating point
(`f32`) arithmetic is embedded as exact real arithmetic.
-/

noncomputable section

/-- Three-component real vector, standing in for `glam::Vec3`. -/
@[ext]
structure Vec3 where
  x : ℝ
  y : ℝ
  z : ℝ

namespace Vec3

def add (a b : Vec3) : Vec3 := ⟨a.x + b.x, a.y + b.y, a.z + b.z⟩

def sub (a b : Vec3) : Vec3 := ⟨a.x - b.x, a.y - b.y, a.z - b.z⟩

def neg (a : Vec3) : Vec3 := ⟨-a.x, -a.y, -a.z⟩

/-- Scalar multiplication on the right, as in `velocity * dt`. -/
def smul (a : Vec3) (c : ℝ) : Vec3 := ⟨a.x * c, a.y * c, a.z * c⟩

def zero : Vec3 := ⟨0, 0, 0⟩

/-- `Vec3::X`. -/
def X : Vec3 := ⟨1, 0, 0⟩

/-- `Vec3::Y`, the world up axis. -/
def Y : Vec3 := ⟨0, 1, 0⟩

/-- `Vec3::Z`. -/
def Z : Vec3 := ⟨0, 0, 1⟩

/-- Squared euclidean length. -/
def normSq (a : Vec3) : ℝ := a.x ^ 2 + a.y ^ 2 + a.z ^ 2

/-- Euclidean length, `Vec3::length`. -/
def length (a : Vec3) : ℝ := Real.sqrt a.normSq

instance : Add Vec3 := ⟨Vec3.add⟩
instance : Sub Vec3 := ⟨Vec3.sub⟩
instance : Neg Vec3 := ⟨Vec3.neg⟩
instance : Zero Vec3 := ⟨Vec3.zero⟩

@[simp] theorem add_x (a b : Vec3) : (a + b).x = a.x + b.x := rfl
@[simp] theorem add_y (a b : Vec3) : (a + b).y = a.y + b.y := rfl
@[simp] theorem add_z (a b : Vec3) : (a + b).z = a.z + b.z := rfl
@[simp] theorem sub_x (a b : Vec3) : (a - b).x = a.x - b.x := rfl
@[simp] theorem sub_y (a b : Vec3) : (a - b).y = a.y - b.y := rfl
@[simp] theorem sub_z (a b : Vec3) : (a - b).z = a.z - b.z := rfl
@[simp] theorem neg_x (a : Vec3) : (-a).x = -a.x := rfl
@[simp] theorem neg_y (a : Vec3) : (-a).y = -a.y := rfl
@[simp] theorem neg_z (a : Vec3) : (-a).z = -a.z := rfl
@[simp] theorem zero_x : (0 : Vec3).x = 0 := rfl
@[simp] theorem zero_y : (0 : Vec3).y = 0 := rfl
@[simp] theorem zero_z : (0 : Vec3).z = 0 := rfl
@[simp] theorem zero_def_x : Vec3.zero.x = 0 := rfl
@[simp] theorem zero_def_y : Vec3.zero.y = 0 := rfl
@[simp] theorem zero_def_z : Vec3.zero.z = 0 := rfl
@[simp] theorem smul_x (a : Vec3) (c : ℝ) : (a.smul c).x = a.x * c := rfl
@[simp] theorem smul_y (a : Vec3) (c : ℝ) : (a.smul c).y = a.y * c := rfl
@[simp] theorem smul_z (a : Vec3) (c : ℝ) : (a.smul c).z = a.z * c := rfl

instance : AddCommMonoid Vec3 where
  add_assoc a b c := by ext <;> simp <;> ring
  zero_add a := by ext <;> simp
  add_zero a := by ext <;> simp
  add_comm a b := by ext <;> simp <;> ring
  nsmul := nsmulRec

theorem zero_eq : Vec3.zero = (0 : Vec3) := rfl

end Vec3

/-- Quaternion with real components, standing in for `glam::Quat`
(stored here as `w, x, y, z`). -/
@[ext]
structure Quat where
  w : ℝ
  x : ℝ
  y : ℝ
  z : ℝ

namespace Quat

/-- Hamilton product, `Quat * Quat`. -/
def mul (a b : Quat) : Quat :=
  ⟨a.w * b.w - a.x * b.x - a.y * b.y - a.z * b.z,
   a.w * b.x + a.x * b.w + a.y * b.z - a.z * b.y,
   a.w * b.y - a.x * b.z + a.y * b.w + a.z * b.x,
   a.w * b.z + a.x * b.y - a.y * b.x + a.z * b.w⟩

/-- Quaternion conjugate. -/
def conj (a : Quat) : Quat := ⟨a.w, -a.x, -a.y, -a.z⟩

/-- `Quat::from_axis_angle(axis, angle)`: scalar part `cos (angle/2)`,
vector part `sin (angle/2) • axis`. -/
def fromAxisAngle (axis : Vec3) (angle : ℝ) : Quat :=
  ⟨Real.cos (angle / 2),
   Real.sin (angle / 2) * axis.x,
   Real.sin (angle / 2) * axis.y,
   Real.sin (angle / 2) * axis.z⟩

/-- Rotating a vector by a quaternion: the vector part of `q * (0, v) * conj q`. -/
def rotate (q : Quat) (v : Vec3) : Vec3 :=
  let p := Quat.mul (Quat.mul q ⟨0, v.x, v.y, v.z⟩) (Quat.conj q)
  ⟨p.x, p.y, p.z⟩

end Quat

/-- `bevy::prelude::KeyCode`, restricted to the keys the controller binds,
with an `Other` constructor for all remaining physical keys. -/
inductive KeyCode where
  | W
  | S
  | D
  | A
  | Space
  | LShift
  | Escape
  | Other : Nat → KeyCode
deriving DecidableEq

/-- `bevy::window::CursorGrabMode`. -/
inductive CursorGrabMode where
  | None
  | Confined
  | Locked
deriving DecidableEq

/-- Mouse sensitivity and movement speed (`MovementSettings`). -/
structure MovementSettings where
  sensitivity : ℝ
  speed : ℝ

/-- `MovementSettings::default()`. -/
def MovementSettings.default : MovementSettings :=
  { sensitivity := 0.00012, speed := 12 }

/-- `KeysBindings`. -/
structure KeysBindings where
  forward : KeyCode
  back : KeyCode
  right : KeyCode
  left : KeyCode
  up : KeyCode
  down : KeyCode
  toggle_grab_cursor : KeyCode

/-- `KeysBindings::default()`. -/
def KeysBindings.default : KeysBindings :=
  { forward := KeyCode.W,
    back := KeyCode.S,
    right := KeyCode.D,
    left := KeyCode.A,
    up := KeyCode.Space,
    down := KeyCode.LShift,
    toggle_grab_cursor := KeyCode.Escape }

/-- A `MouseMotion` event; `dx`, `dy` are `ev.delta.x`, `ev.delta.y`. -/
structure MouseMotion where
  dx : ℝ
  dy : ℝ

/-- The primary `Window`: pixel dimensions, cursor grab mode, cursor visibility. -/
structure Window where
  width : ℝ
  height : ℝ
  cursor_grab_mode : CursorGrabMode
  cursor_visible : Bool

/-- `toggle_grab_cursor` (lines 61-72): grabs (confine + hide) from `None`,
otherwise releases (free + show). -/
def toggle_grab_cursor (window : Window) : Window :=
  match window.cursor_grab_mode with
  | CursorGrabMode.None =>
    { window with cursor_grab_mode := CursorGrabMode.Confined, cursor_visible := false }
  | _ =>
    { window with cursor_grab_mode := CursorGrabMode.None, cursor_visible := true }

/-- The pitch/yaw part of `InputState` (the motion-event reader cursor is
carried separately in `World.reader_cursor`). -/
structure InputState where
  pitch : ℝ
  yaw : ℝ

/-- A camera `Transform`: translation and rotation. -/
structure Transform where
  translation : Vec3
  rotation : Quat

/-- `f32::to_radians`: multiply by `π / 180`. -/
def toRadians (x : ℝ) : ℝ := x * (Real.pi / 180)

/-- `f32::clamp(lo, hi)` as in Rust: below `lo` gives `lo`, above `hi` gives
`hi`, otherwise the value itself. -/
def fclamp (x lo hi : ℝ) : ℝ := if x < lo then lo else if x > hi then hi else x

/-- The composed rotation written by `player_look` (lines 161-162):
yaw about `Y` as the outer factor, pitch about `X` as the inner factor. -/
def lookRotation (s : InputState) : Quat :=
  Quat.mul (Quat.fromAxisAngle Vec3.Y s.yaw) (Quat.fromAxisAngle Vec3.X s.pitch)

/-- Body of the per-event loop of `player_look` (lines 145-162): if the cursor
is grabbed, subtract the scaled delta from pitch and yaw; then clamp pitch to
`[-1.54, 1.54]`; then produce the rotation to write to the camera. -/
def lookEventStep (window : Window) (sensitivity : ℝ) (s : InputState) (ev : MouseMotion) :
    InputState × Quat :=
  let s1 :=
    match window.cursor_grab_mode with
    | CursorGrabMode.None => s
    | _ =>
      let window_scale := min window.height window.width
      { pitch := s.pitch - toRadians (sensitivity * ev.dy * window_scale),
        yaw := s.yaw - toRadians (sensitivity * ev.dx * window_scale) }
  let s2 : InputState := { s1 with pitch := fclamp s1.pitch (-1.54) 1.54 }
  (s2, lookRotation s2)

/-- Folding the per-event step over a list of motion events: the resulting
pitch/yaw state. -/
def lookRun (window : Window) (sensitivity : ℝ) (s : InputState) (evs : List MouseMotion) :
    InputState :=
  evs.foldl (fun s ev => (lookEventStep window sensitivity s ev).1) s

/-- The inner event loop of `player_look` for one camera transform: every
event updates the state and rewrites the camera rotation. -/
def lookCamera (window : Window) (sensitivity : ℝ) (s : InputState) (evs : List MouseMotion)
    (t : Transform) : InputState × Transform :=
  evs.foldl
    (fun acc ev =>
      let r := lookEventStep window sensitivity acc.1 ev
      (r.1, { acc.2 with rotation := r.2 }))
    (s, t)

/-- The world state threaded through the per-tick systems: the optional
primary window, the `InputState` resource, the motion-event log with the
`ManualEventReader` cursor, the transforms of the `FlyCam`-tagged cameras in
query order, and the warning log. -/
structure World where
  window : Option Window
  state : InputState
  reader_cursor : Nat
  motions : List MouseMotion
  cameras : List Transform
  log : List String

/-- One outer-loop iteration of `player_look` (lines 144-163): the camera
drains the events still unread at the current reader cursor, and the cursor
advances to the end of the log. -/
def lookFoldStep (window : Window) (sensitivity : ℝ) (motions : List MouseMotion)
    (acc : InputState × Nat × List Transform) (t : Transform) : InputState × Nat × List Transform :=
  let pending := motions.drop acc.2.1
  let r := lookCamera window sensitivity acc.1 pending t
  (r.1, motions.length, acc.2.2 ++ [r.2])

/-- The `player_look` system (lines 135-168). -/
def player_look (settings : MovementSettings) (w : World) : World :=
  match w.window with
  | Option.none =>
    { w with log := w.log ++ ["Primary window not found for `player_look`!"] }
  | Option.some window =>
    let res := w.cameras.foldl (lookFoldStep window settings.sensitivity w.motions)
      (w.state, w.reader_cursor, ([] : List Transform))
    { w with state := res.1, reader_cursor := res.2.1, cameras := res.2.2 }

/-- Body of the per-key loop of `player_move` (lines 110-123): while not
grabbed no key contributes; otherwise the key's bound axis is added to the
accumulating velocity, checked in the source's order. -/
def keyStep (mode : CursorGrabMode) (kb : KeysBindings) (forward right : Vec3)
    (v : Vec3) (k : KeyCode) : Vec3 :=
  match mode with
  | CursorGrabMode.None => v
  | _ =>
    if k = kb.forward then v + forward
    else if k = kb.back then v - forward
    else if k = kb.left then v - right
    else if k = kb.right then v + right
    else if k = kb.up then v + Vec3.Y
    else if k = kb.down then v - Vec3.Y
    else v

/-- The raw (pre-normalization) velocity accumulated over the held keys. -/
def moveVelocityRaw (mode : CursorGrabMode) (kb : KeysBindings) (forward right : Vec3)
    (pressed : List KeyCode) : Vec3 :=
  pressed.foldl (keyStep mode kb forward right) Vec3.zero

open Classical in
/-- `Vec3::normalize_or_zero` (line 125): the zero vector when the length is
zero, otherwise the vector divided by its length. -/
def normalize_or_zero (v : Vec3) : Vec3 :=
  if v.length = 0 then Vec3.zero else v.smul (1 / v.length)

/-- The per-camera body of `player_move` (lines 104-127). -/
def player_move_camera (window : Window) (kb : KeysBindings) (settings : MovementSettings)
    (pressed : List KeyCode) (dt : ℝ) (t : Transform) : Transform :=
  let local_z := Quat.rotate t.rotation Vec3.Z
  let forward := Vec3.neg ⟨local_z.x, 0, local_z.z⟩
  let right : Vec3 := ⟨local_z.z, 0, -local_z.x⟩
  let velocity := moveVelocityRaw window.cursor_grab_mode kb forward right pressed
  let velocity := normalize_or_zero velocity
  { t with translation := t.translation + (velocity.smul dt).smul settings.speed }

/-- The `player_move` system (lines 95-132). -/
def player_move (kb : KeysBindings) (settings : MovementSettings) (pressed : List KeyCode)
    (dt : ℝ) (w : World) : World :=
  match w.window with
  | Option.none =>
    { w with log := w.log ++ ["Primary window not found for `player_move`!"] }
  | Option.some window =>
    { w with cameras := w.cameras.map (player_move_camera window kb settings pressed dt) }

/-- The `cursor_grab` system (lines 170-182): toggle the grab mode when the
bound toggle key was just pressed this tick. -/
def cursor_grab (kb : KeysBindings) (just_pressed : List KeyCode) (w : World) : World :=
  match w.window with
  | Option.none =>
    { w with log := w.log ++ ["Primary window not found for `cursor_grab`!"] }
  | Option.some window =>
    if kb.toggle_grab_cursor ∈ just_pressed then
      { w with window := Option.some (toggle_grab_cursor window) }
    else w

/-- Modelled from the spec: the input layer's edge-detection query ("was this
key pressed this tick", `Input::just_pressed`) for a key held across `n`
consecutive ticks without release reports the key just-pressed only on the
first tick. -/
def heldKeyTicks (k : KeyCode) (n : Nat) : List (List KeyCode) :=
  match n with
  | 0 => []
  | Nat.succ m => [k] :: List.replicate m []

/-- Run the `cursor_grab` system over a sequence of ticks, each supplying the
set of keys just pressed that tick. -/
def runGrabTicks (kb : KeysBindings) (ticks : List (List KeyCode)) (w : World) : World :=
  ticks.foldl (fun w jp => cursor_grab kb jp w) w

end

noncomputable section

/-! ### Basic lemmas about clamping and the per-event look step -/

theorem fclamp_mem (x lo hi : ℝ) (h : lo ≤ hi) : fclamp x lo hi ∈ Set.Icc lo hi := by
  unfold fclamp
  split_ifs with h1 h2 <;> constructor <;> linarith

theorem fclamp_eq_max (x lo hi : ℝ) (hx : x ≤ hi) : fclamp x lo hi = max lo x := by
  unfold fclamp
  split_ifs with h1 h2
  · exact (max_eq_left (le_of_lt h1)).symm
  · linarith
  · exact (max_eq_right (not_lt.mp h1)).symm

theorem fclamp_eq_self (x lo hi : ℝ) (h1 : lo ≤ x) (h2 : x ≤ hi) : fclamp x lo hi = x := by
  unfold fclamp
  split_ifs <;> linarith

theorem lookEventStep_free (window : Window) (sens : ℝ) (s : InputState) (ev : MouseMotion)
    (h : window.cursor_grab_mode = CursorGrabMode.None) :
    (lookEventStep window sens s ev).1 = { s with pitch := fclamp s.pitch (-1.54) 1.54 } := by
  simp [lookEventStep, h]

theorem lookEventStep_grabbed (window : Window) (sens : ℝ) (s : InputState) (ev : MouseMotion)
    (h : window.cursor_grab_mode ≠ CursorGrabMode.None) :
    (lookEventStep window sens s ev).1 =
      { pitch := fclamp (s.pitch - toRadians (sens * ev.dy * min window.height window.width))
          (-1.54) 1.54,
        yaw := s.yaw - toRadians (sens * ev.dx * min window.height window.width) } := by
  cases hm : window.cursor_grab_mode with
  | None => exact absurd hm h
  | Confined => simp [lookEventStep, hm]
  | Locked => simp [lookEventStep, hm]

theorem lookEventStep_snd (window : Window) (sens : ℝ) (s : InputState) (ev : MouseMotion) :
    (lookEventStep window sens s ev).2 = lookRotation (lookEventStep window sens s ev).1 := rfl

/-! ### Quaternion facts used by the no-roll property -/

theorem fromAxisAngle_X_zero : Quat.fromAxisAngle Vec3.X 0 = ⟨1, 0, 0, 0⟩ := by
  ext <;> simp [Quat.fromAxisAngle, Vec3.X]

theorem quat_mul_id (q : Quat) : Quat.mul q ⟨1, 0, 0, 0⟩ = q := by
  ext <;> simp [Quat.mul]

theorem rotate_yaw_up_z (θ : ℝ) :
    (Quat.rotate (Quat.fromAxisAngle Vec3.Y θ) Vec3.Y).z = 0 := by
  simp [Quat.rotate, Quat.mul, Quat.conj, Quat.fromAxisAngle, Vec3.Y]

/-- Claim C1: the rotation written while processing a motion event is the
quaternion product of the yaw rotation about `Y` (outer factor) and the pitch
rotation about `X` (inner factor); when the stored pitch is `0` the written
rotation is the pure yaw rotation, and rotating the local up vector by it
leaves zero component along the original forward (`Z`) axis, i.e. no roll. -/
theorem look_rotation_yaw_outer (window : Window) (sens : ℝ) (s : InputState) (ev : MouseMotion) :
    (lookEventStep window sens s ev).2
      = Quat.mul (Quat.fromAxisAngle Vec3.Y (lookEventStep window sens s ev).1.yaw)
          (Quat.fromAxisAngle Vec3.X (lookEventStep window sens s ev).1.pitch)
    ∧ ((lookEventStep window sens s ev).1.pitch = 0 →
        (lookEventStep window sens s ev).2
          = Quat.fromAxisAngle Vec3.Y (lookEventStep window sens s ev).1.yaw
        ∧ (Quat.rotate (lookEventStep window sens s ev).2 Vec3.Y).z = 0) := by
  refine ⟨rfl, fun h => ?_⟩
  have h2 : (lookEventStep window sens s ev).2
      = Quat.fromAxisAngle Vec3.Y (lookEventStep window sens s ev).1.yaw := by
    have h1 : (lookEventStep window sens s ev).2
        = Quat.mul (Quat.fromAxisAngle Vec3.Y (lookEventStep window sens s ev).1.yaw)
            (Quat.fromAxisAngle Vec3.X (lookEventStep window sens s ev).1.pitch) := rfl
    rw [h1, h, fromAxisAngle_X_zero, quat_mul_id]
  exact ⟨h2, by rw [h2]; exact rotate_yaw_up_z _⟩

/-- Witness for C1 at a concrete input with stored pitch `0`. -/
theorem look_rotation_yaw_outer_witness :
    (lookEventStep ⟨800, 600, CursorGrabMode.None, true⟩ 1 ⟨0, 5⟩ ⟨1, 2⟩).1.pitch = 0
    ∧ ((lookEventStep ⟨800, 600, CursorGrabMode.None, true⟩ 1 ⟨0, 5⟩ ⟨1, 2⟩).2
        = Quat.fromAxisAngle Vec3.Y
            (lookEventStep ⟨800, 600, CursorGrabMode.None, true⟩ 1 ⟨0, 5⟩ ⟨1, 2⟩).1.yaw
      ∧ (Quat.rotate (lookEventStep ⟨800, 600, CursorGrabMode.None, true⟩ 1 ⟨0, 5⟩ ⟨1, 2⟩).2
            Vec3.Y).z = 0) := by
  have hp : (lookEventStep (⟨800, 600, CursorGrabMode.None, true⟩ : Window) 1
      (⟨0, 5⟩ : InputState) ⟨1, 2⟩).1.pitch = 0 := by
    norm_num [lookEventStep, fclamp]
  exact ⟨hp, (look_rotation_yaw_outer _ _ _ _).2 hp⟩

/-- Claim C9: when no primary window is available, each of the three per-tick
systems appends its warning to the log and leaves every other field of the
world (cameras, input state, reader cursor, window) unchanged. -/
theorem missing_window_warns_and_skips (kb : KeysBindings) (settings : MovementSettings)
    (pressed just_pressed : List KeyCode) (dt : ℝ) (w : World) (h : w.window = Option.none) :
    player_move kb settings pressed dt w
        = { w with log := w.log ++ ["Primary window not found for `player_move`!"] }
    ∧ player_look settings w
        = { w with log := w.log ++ ["Primary window not found for `player_look`!"] }
    ∧ cursor_grab kb just_pressed w
        = { w with log := w.log ++ ["Primary window not found for `cursor_grab`!"] } := by
  refine ⟨?_, ?_, ?_⟩ <;> simp [player_move, player_look, cursor_grab, h]

/-- A world without a primary window, used as the C9 witness input. -/
def noWindowWorld : World :=
  { window := Option.none, state := ⟨0, 0⟩, reader_cursor := 0, motions := [],
    cameras := [], log := [] }

/-- Witness for C9 at a concrete windowless world. -/
theorem missing_window_warns_and_skips_witness :
    noWindowWorld.window = Option.none
    ∧ (player_move KeysBindings.default MovementSettings.default [] 1 noWindowWorld
        = { noWindowWorld with
            log := noWindowWorld.log ++ ["Primary window not found for `player_move`!"] }
      ∧ player_look MovementSettings.default noWindowWorld
        = { noWindowWorld with
            log := noWindowWorld.log ++ ["Primary window not found for `player_look`!"] }
      ∧ cursor_grab KeysBindings.default [] noWindowWorld
        = { noWindowWorld with
            log := noWindowWorld.log ++ ["Primary window not found for `cursor_grab`!"] }) :=
  ⟨rfl, missing_window_warns_and_skips KeysBindings.default MovementSettings.default [] [] 1
    noWindowWorld rfl⟩

end

noncomputable section

/-! ### Pitch clamp invariant and saturation -/

theorem lookRun_nil (window : Window) (sens : ℝ) (s : InputState) :
    lookRun window sens s [] = s := rfl

theorem lookRun_cons (window : Window) (sens : ℝ) (s : InputState) (ev : MouseMotion)
    (evs : List MouseMotion) :
    lookRun window sens s (ev :: evs)
      = lookRun window sens (lookEventStep window sens s ev).1 evs := rfl

theorem lookEventStep_pitch_mem (window : Window) (sens : ℝ) (s : InputState) (ev : MouseMotion) :
    (lookEventStep window sens s ev).1.pitch ∈ Set.Icc (-1.54 : ℝ) 1.54 := by
  by_cases h : window.cursor_grab_mode = CursorGrabMode.None
  · rw [lookEventStep_free window sens s ev h]
    exact fclamp_mem _ _ _ (by norm_num)
  · rw [lookEventStep_grabbed window sens s ev h]
    exact fclamp_mem _ _ _ (by norm_num)

theorem lookRun_pitch_mem (window : Window) (sens : ℝ) (evs : List MouseMotion) :
    ∀ s : InputState, s.pitch ∈ Set.Icc (-1.54 : ℝ) 1.54 →
      (lookRun window sens s evs).pitch ∈ Set.Icc (-1.54 : ℝ) 1.54 := by
  induction evs with
  | nil => intro s hs; exact hs
  | cons ev evs ih =>
    intro s _
    rw [lookRun_cons]
    exact ih _ (lookEventStep_pitch_mem window sens s ev)

/-- The per-event pitch decrement applied while grabbed (line 151-152). -/
def lookDec (window : Window) (sens : ℝ) (ev : MouseMotion) : ℝ :=
  toRadians (sens * ev.dy * min window.height window.width)

theorem lookRun_pitch_max (window : Window) (sens : ℝ)
    (h : window.cursor_grab_mode ≠ CursorGrabMode.None) :
    ∀ (evs : List MouseMotion) (s : InputState), (∀ ev ∈ evs, 0 ≤ lookDec window sens ev) →
      -1.54 ≤ s.pitch → s.pitch ≤ 1.54 →
      (lookRun window sens s evs).pitch
        = max (-1.54) (s.pitch - (evs.map (lookDec window sens)).sum) := by
  intro evs
  induction evs with
  | nil =>
    intro s _ h1 _
    simp only [lookRun_nil, List.map_nil, List.sum_nil, sub_zero]
    exact (max_eq_right h1).symm
  | cons ev evs ih =>
    intro s hd h1 h2
    have hdev : 0 ≤ lookDec window sens ev := hd ev (List.mem_cons_self ev evs)
    have hS : 0 ≤ (evs.map (lookDec window sens)).sum := by
      apply List.sum_nonneg
      intro x hx
      obtain ⟨e, he, rfl⟩ := List.mem_map.mp hx
      exact hd e (List.mem_cons_of_mem ev he)
    have hstep : (lookEventStep window sens s ev).1.pitch
        = max (-1.54) (s.pitch - lookDec window sens ev) := by
      rw [lookEventStep_grabbed window sens s ev h]
      exact fclamp_eq_max _ _ _ (by simp only [lookDec] at hdev ⊢; linarith)
    rw [lookRun_cons,
      ih (lookEventStep window sens s ev).1
        (fun e he => hd e (List.mem_cons_of_mem ev he))
        (hstep ▸ le_max_left _ _)
        (hstep ▸ max_le (by norm_num) (by linarith)),
      hstep, List.map_cons, List.sum_cons, ← max_sub_sub_right, ← max_assoc]
    have hmax : max (-1.54 : ℝ) (-1.54 - (evs.map (lookDec window sens)).sum) = -1.54 :=
      max_eq_left (by linarith)
    rw [hmax]
    ring_nf

/-- Claim C2: processing any sequence of motion deltas from an initial pitch
in `[-1.54, 1.54]` keeps the stored pitch in `[-1.54, 1.54]` after every
individual delta (every prefix of the event list), and while grabbed a run of
pitch-decreasing deltas whose raw sum drives the pitch past the lower bound
leaves the pitch saturated at exactly `-1.54`. -/
theorem pitch_clamped_and_saturates (window : Window) (sens : ℝ) (s : InputState)
    (evs : List MouseMotion) (hs : s.pitch ∈ Set.Icc (-1.54 : ℝ) 1.54) :
    (∀ k : ℕ, (lookRun window sens s (evs.take k)).pitch ∈ Set.Icc (-1.54 : ℝ) 1.54)
    ∧ (window.cursor_grab_mode ≠ CursorGrabMode.None →
        (∀ ev ∈ evs, 0 ≤ lookDec window sens ev) →
        s.pitch - (evs.map (lookDec window sens)).sum ≤ -1.54 →
        (lookRun window sens s evs).pitch = -1.54) := by
  constructor
  · intro k
    exact lookRun_pitch_mem window sens (evs.take k) s hs
  · intro hm hd hsum
    rw [lookRun_pitch_max window sens hm evs s hd hs.1 hs.2]
    exact max_eq_left hsum

/-- A grabbed 180-by-180 window used by the C2 witness. -/
def satWindow : Window := ⟨180, 180, CursorGrabMode.Confined, false⟩

/-- Witness for C2: two deltas of `dy = 90` at sensitivity `1` on a 180-pixel
window each subtract `π/2`, whose sum overshoots `-1.54`; the pitch ends at
exactly `-1.54`. -/
theorem pitch_clamped_and_saturates_witness :
    ((⟨0, 0⟩ : InputState).pitch ∈ Set.Icc (-1.54 : ℝ) 1.54
      ∧ satWindow.cursor_grab_mode ≠ CursorGrabMode.None
      ∧ (∀ ev ∈ [(⟨0, 90⟩ : MouseMotion), ⟨0, 90⟩], 0 ≤ lookDec satWindow 1 ev)
      ∧ (⟨0, 0⟩ : InputState).pitch
          - ([(⟨0, 90⟩ : MouseMotion), ⟨0, 90⟩].map (lookDec satWindow 1)).sum ≤ -1.54)
    ∧ ((∀ k : ℕ, (lookRun satWindow 1 ⟨0, 0⟩ ([(⟨0, 90⟩ : MouseMotion), ⟨0, 90⟩].take k)).pitch
          ∈ Set.Icc (-1.54 : ℝ) 1.54)
      ∧ (lookRun satWindow 1 ⟨0, 0⟩ [⟨0, 90⟩, ⟨0, 90⟩]).pitch = -1.54) := by
  have hs : (⟨0, 0⟩ : InputState).pitch ∈ Set.Icc (-1.54 : ℝ) 1.54 := by
    norm_num
  have hm : satWindow.cursor_grab_mode ≠ CursorGrabMode.None := by
    simp [satWindow]
  have hd : ∀ ev ∈ [(⟨0, 90⟩ : MouseMotion), ⟨0, 90⟩], 0 ≤ lookDec satWindow 1 ev := by
    intro ev hev
    have hpi := Real.pi_pos
    rcases List.mem_cons.mp hev with h | h
    · subst h; simp only [lookDec, satWindow, toRadians, min_self]; nlinarith
    · rcases List.mem_singleton.mp h with rfl
      simp only [lookDec, satWindow, toRadians, min_self]; nlinarith
  have hsum : (⟨0, 0⟩ : InputState).pitch
      - ([(⟨0, 90⟩ : MouseMotion), ⟨0, 90⟩].map (lookDec satWindow 1)).sum ≤ -1.54 := by
    have hpi := Real.pi_gt_three
    simp only [lookDec, satWindow, toRadians, min_self, List.map_cons, List.map_nil,
      List.sum_cons, List.sum_nil]
    nlinarith
  exact ⟨⟨hs, hm, hd, hsum⟩,
    (pitch_clamped_and_saturates satWindow 1 ⟨0, 0⟩ [⟨0, 90⟩, ⟨0, 90⟩] hs).1,
    (pitch_clamped_and_saturates satWindow 1 ⟨0, 0⟩ [⟨0, 90⟩, ⟨0, 90⟩] hs).2 hm hd hsum⟩

/-- Claim C3: while grabbed, each motion delta in arrival order subtracts
`radians(sensitivity * dx * window_scale)` from yaw and
`radians(sensitivity * dy * window_scale)` from pitch, with
`window_scale = min(window_height, window_width)`; the pitch equality holds
whenever the subtracted value is still inside the clamp range, and events are
consumed head-first (arrival order). -/
theorem per_delta_accumulation (window : Window) (sens : ℝ) (s : InputState) (ev : MouseMotion)
    (h : window.cursor_grab_mode ≠ CursorGrabMode.None) :
    (lookEventStep window sens s ev).1.yaw
        = s.yaw - toRadians (sens * ev.dx * min window.height window.width)
    ∧ (s.pitch - toRadians (sens * ev.dy * min window.height window.width)
          ∈ Set.Icc (-1.54 : ℝ) 1.54 →
        (lookEventStep window sens s ev).1.pitch
          = s.pitch - toRadians (sens * ev.dy * min window.height window.width))
    ∧ ∀ evs : List MouseMotion,
        lookRun window sens s (ev :: evs)
          = lookRun window sens (lookEventStep window sens s ev).1 evs := by
  refine ⟨?_, ?_, fun evs => rfl⟩
  · rw [lookEventStep_grabbed window sens s ev h]
  · intro hin
    rw [lookEventStep_grabbed window sens s ev h]
    exact fclamp_eq_self _ _ _ hin.1 hin.2

/-- The grabbed 1920-by-1080 window of the C3 scenario. -/
def hdWindow : Window := ⟨1920, 1080, CursorGrabMode.Confined, false⟩

/-- Witness for C3, the spec scenario: 1920x1080 window, sensitivity
`0.00012`, delta `(dx, dy) = (100, 0)`: yaw decreases by
`radians(0.00012 * 100 * 1080)` and pitch is unchanged. -/
theorem per_delta_accumulation_witness :
    (hdWindow.cursor_grab_mode ≠ CursorGrabMode.None
      ∧ (⟨0, 0⟩ : InputState).pitch
          - toRadians (0.00012 * (⟨100, 0⟩ : MouseMotion).dy * min hdWindow.height hdWindow.width)
          ∈ Set.Icc (-1.54 : ℝ) 1.54)
    ∧ ((lookEventStep hdWindow 0.00012 ⟨0, 0⟩ ⟨100, 0⟩).1.yaw
        = (⟨0, 0⟩ : InputState).yaw
          - toRadians (0.00012 * (⟨100, 0⟩ : MouseMotion).dx * min hdWindow.height hdWindow.width)
      ∧ (lookEventStep hdWindow 0.00012 ⟨0, 0⟩ ⟨100, 0⟩).1.pitch
        = (⟨0, 0⟩ : InputState).pitch
          - toRadians (0.00012 * (⟨100, 0⟩ : MouseMotion).dy * min hdWindow.height hdWindow.width)) := by
  have hm : hdWindow.cursor_grab_mode ≠ CursorGrabMode.None := by
    simp [hdWindow]
  have hin : (⟨0, 0⟩ : InputState).pitch
      - toRadians (0.00012 * (⟨100, 0⟩ : MouseMotion).dy * min hdWindow.height hdWindow.width)
      ∈ Set.Icc (-1.54 : ℝ) 1.54 := by
    norm_num [toRadians]
  exact ⟨⟨hm, hin⟩, (per_delta_accumulation hdWindow 0.00012 ⟨0, 0⟩ ⟨100, 0⟩ hm).1,
    (per_delta_accumulation hdWindow 0.00012 ⟨0, 0⟩ ⟨100, 0⟩ hm).2.1 hin⟩

end

noncomputable section

/-! ### Movement resolver: sum of per-key contributions, normalization -/

/-- The single-axis contribution of one held key (lines 113-121), as a signed
vector so that the accumulation is a plain sum. -/
def keyContribution (mode : CursorGrabMode) (kb : KeysBindings) (forward right : Vec3)
    (k : KeyCode) : Vec3 :=
  match mode with
  | CursorGrabMode.None => Vec3.zero
  | _ =>
    if k = kb.forward then forward
    else if k = kb.back then -forward
    else if k = kb.left then -right
    else if k = kb.right then right
    else if k = kb.up then Vec3.Y
    else if k = kb.down then -Vec3.Y
    else Vec3.zero

theorem keyStep_eq_add (mode : CursorGrabMode) (kb : KeysBindings) (forward right : Vec3)
    (v : Vec3) (k : KeyCode) :
    keyStep mode kb forward right v k = v + keyContribution mode kb forward right k := by
  cases mode with
  | None => simp only [keyStep, keyContribution]; ext <;> simp
  | Confined =>
    simp only [keyStep, keyContribution]
    split_ifs <;> ext <;> simp <;> ring
  | Locked =>
    simp only [keyStep, keyContribution]
    split_ifs <;> ext <;> simp <;> ring

theorem foldl_keyStep_sum (mode : CursorGrabMode) (kb : KeysBindings) (forward right : Vec3) :
    ∀ (l : List KeyCode) (v : Vec3),
      l.foldl (keyStep mode kb forward right) v
        = v + (l.map (keyContribution mode kb forward right)).sum := by
  intro l
  induction l with
  | nil => intro v; simp
  | cons k l ih =>
    intro v
    rw [List.foldl_cons, ih, keyStep_eq_add, List.map_cons, List.sum_cons, add_assoc]

theorem moveVelocityRaw_eq_sum (mode : CursorGrabMode) (kb : KeysBindings)
    (forward right : Vec3) (pressed : List KeyCode) :
    moveVelocityRaw mode kb forward right pressed
      = (pressed.map (keyContribution mode kb forward right)).sum := by
  rw [moveVelocityRaw, foldl_keyStep_sum, Vec3.zero_eq, zero_add]

theorem vec3_normSq_nonneg (v : Vec3) : 0 ≤ v.normSq := by
  rw [Vec3.normSq]
  positivity

theorem vec3_normSq_eq_zero_iff (v : Vec3) : v.normSq = 0 ↔ v = Vec3.zero := by
  constructor
  · intro h
    rw [Vec3.normSq] at h
    have hx : v.x ^ 2 = 0 :=
      le_antisymm (by nlinarith [sq_nonneg v.y, sq_nonneg v.z]) (sq_nonneg v.x)
    have hy : v.y ^ 2 = 0 :=
      le_antisymm (by nlinarith [sq_nonneg v.x, sq_nonneg v.z]) (sq_nonneg v.y)
    have hz : v.z ^ 2 = 0 :=
      le_antisymm (by nlinarith [sq_nonneg v.x, sq_nonneg v.y]) (sq_nonneg v.z)
    ext
    · exact (pow_eq_zero_iff (two_ne_zero)).mp hx
    · exact (pow_eq_zero_iff (two_ne_zero)).mp hy
    · exact (pow_eq_zero_iff (two_ne_zero)).mp hz
  · intro h
    rw [h, Vec3.normSq]
    norm_num

theorem vec3_length_eq_zero_iff (v : Vec3) : v.length = 0 ↔ v = Vec3.zero := by
  rw [Vec3.length, Real.sqrt_eq_zero (vec3_normSq_nonneg v)]
  exact vec3_normSq_eq_zero_iff v

theorem normalize_or_zero_of_zero : normalize_or_zero Vec3.zero = Vec3.zero := by
  rw [normalize_or_zero, if_pos ((vec3_length_eq_zero_iff Vec3.zero).mpr rfl)]

theorem vec3_normSq_smul (v : Vec3) (c : ℝ) : (v.smul c).normSq = c ^ 2 * v.normSq := by
  simp [Vec3.normSq, Vec3.smul]
  ring

theorem normalize_or_zero_length (v : Vec3) (h : v ≠ Vec3.zero) :
    (normalize_or_zero v).length = 1 := by
  have hn : v.normSq ≠ 0 := fun hc => h ((vec3_normSq_eq_zero_iff v).mp hc)
  have hl : v.length ≠ 0 := fun hc => h ((vec3_length_eq_zero_iff v).mp hc)
  have h2 : v.length ^ 2 = v.normSq := by
    rw [Vec3.length]
    exact Real.sq_sqrt (vec3_normSq_nonneg v)
  have h3 : (v.smul (1 / v.length)).normSq = 1 := by
    rw [vec3_normSq_smul, div_pow, one_pow, h2, one_div, inv_mul_cancel₀ hn]
  rw [normalize_or_zero, if_neg hl, Vec3.length, h3, Real.sqrt_one]

/-- Claim C4: the movement resolver's raw velocity is the sum of one signed
axis contribution per held key; a raw sum that is exactly the zero vector
resolves to the zero vector, and a non-zero raw sum resolves to a vector of
length exactly `1` before the `speed * dt` scaling. -/
theorem move_velocity_sum_normalized (mode : CursorGrabMode) (kb : KeysBindings)
    (forward right : Vec3) (pressed : List KeyCode) :
    moveVelocityRaw mode kb forward right pressed
        = (pressed.map (keyContribution mode kb forward right)).sum
    ∧ (moveVelocityRaw mode kb forward right pressed = Vec3.zero →
        normalize_or_zero (moveVelocityRaw mode kb forward right pressed) = Vec3.zero)
    ∧ (moveVelocityRaw mode kb forward right pressed ≠ Vec3.zero →
        (normalize_or_zero (moveVelocityRaw mode kb forward right pressed)).length = 1) :=
  ⟨moveVelocityRaw_eq_sum mode kb forward right pressed,
   fun h => by rw [h, normalize_or_zero_of_zero],
   fun h => normalize_or_zero_length _ h⟩

/-- Witness for C4: with the default bindings, holding forward and back
together cancels to the zero vector; holding forward alone resolves to a
unit-length vector. -/
theorem move_velocity_sum_normalized_witness :
    (moveVelocityRaw CursorGrabMode.Confined KeysBindings.default ⟨1, 2, 3⟩ ⟨4, 5, 6⟩
        [KeyCode.W, KeyCode.S] = Vec3.zero
      ∧ moveVelocityRaw CursorGrabMode.Confined KeysBindings.default ⟨1, 2, 3⟩ ⟨4, 5, 6⟩
        [KeyCode.W] ≠ Vec3.zero)
    ∧ (normalize_or_zero (moveVelocityRaw CursorGrabMode.Confined KeysBindings.default
        ⟨1, 2, 3⟩ ⟨4, 5, 6⟩ [KeyCode.W, KeyCode.S]) = Vec3.zero
      ∧ (normalize_or_zero (moveVelocityRaw CursorGrabMode.Confined KeysBindings.default
        ⟨1, 2, 3⟩ ⟨4, 5, 6⟩ [KeyCode.W])).length = 1) := by
  have h0 : moveVelocityRaw CursorGrabMode.Confined KeysBindings.default ⟨1, 2, 3⟩ ⟨4, 5, 6⟩
      [KeyCode.W, KeyCode.S] = Vec3.zero := by
    simp only [moveVelocityRaw, List.foldl_cons, List.foldl_nil, keyStep, KeysBindings.default]
    norm_num
    ext <;> simp
  have h1 : moveVelocityRaw CursorGrabMode.Confined KeysBindings.default ⟨1, 2, 3⟩ ⟨4, 5, 6⟩
      [KeyCode.W] ≠ Vec3.zero := by
    simp only [moveVelocityRaw, List.foldl_cons, List.foldl_nil, keyStep, KeysBindings.default]
    norm_num
    intro hc
    have hx := congrArg Vec3.x hc
    simp at hx
  exact ⟨⟨h0, h1⟩,
    (move_velocity_sum_normalized CursorGrabMode.Confined KeysBindings.default
      ⟨1, 2, 3⟩ ⟨4, 5, 6⟩ [KeyCode.W, KeyCode.S]).2.1 h0,
    (move_velocity_sum_normalized CursorGrabMode.Confined KeysBindings.default
      ⟨1, 2, 3⟩ ⟨4, 5, 6⟩ [KeyCode.W]).2.2 h1⟩

/-! ### Movement is disabled while the cursor is free -/

theorem foldl_keyStep_none (kb : KeysBindings) (forward right : Vec3) :
    ∀ (l : List KeyCode) (v : Vec3),
      l.foldl (keyStep CursorGrabMode.None kb forward right) v = v := by
  intro l
  induction l with
  | nil => intro v; rfl
  | cons k l ih => intro v; rw [List.foldl_cons]; exact ih v

theorem moveVelocityRaw_none (kb : KeysBindings) (forward right : Vec3)
    (pressed : List KeyCode) :
    moveVelocityRaw CursorGrabMode.None kb forward right pressed = Vec3.zero :=
  foldl_keyStep_none kb forward right pressed Vec3.zero

theorem player_move_camera_none (window : Window) (kb : KeysBindings)
    (settings : MovementSettings) (pressed : List KeyCode) (dt : ℝ) (t : Transform)
    (h : window.cursor_grab_mode = CursorGrabMode.None) :
    player_move_camera window kb settings pressed dt t = t := by
  simp only [player_move_camera, h, moveVelocityRaw_none, normalize_or_zero_of_zero]
  have hadd : t.translation + (Vec3.zero.smul dt).smul settings.speed = t.translation := by
    ext <;> simp [Vec3.smul]
  rw [hadd]

theorem list_map_self {α : Type} (f : α → α) :
    ∀ l : List α, (∀ a ∈ l, f a = a) → l.map f = l := by
  intro l
  induction l with
  | nil => intro _; rfl
  | cons a l ih =>
    intro h
    rw [List.map_cons, h a (List.mem_cons_self a l),
      ih (fun b hb => h b (List.mem_cons_of_mem a hb))]

/-- Claim C6: while the cursor grab state is free, the resolver's raw velocity
is the zero vector for every held-key set, every camera transform is left
unchanged by the movement step, and the whole tick leaves the world's camera
list unchanged. -/
theorem ungrabbed_move_zero (window : Window) (kb : KeysBindings)
    (settings : MovementSettings) (pressed : List KeyCode) (dt : ℝ)
    (h : window.cursor_grab_mode = CursorGrabMode.None) :
    (∀ forward right : Vec3,
        moveVelocityRaw window.cursor_grab_mode kb forward right pressed = Vec3.zero)
    ∧ (∀ t : Transform, player_move_camera window kb settings pressed dt t = t)
    ∧ (∀ w : World, w.window = Option.some window →
        (player_move kb settings pressed dt w).cameras = w.cameras) := by
  refine ⟨fun forward right => ?_, fun t => player_move_camera_none _ _ _ _ _ _ h, ?_⟩
  · rw [h]
    exact moveVelocityRaw_none kb forward right pressed
  · intro w hw
    simp only [player_move, hw]
    exact list_map_self _ w.cameras
      (fun t _ => player_move_camera_none _ _ _ _ _ _ h)

/-- A free-cursor window used by the C6 witness. -/
def freeWindow : Window := ⟨640, 480, CursorGrabMode.None, true⟩

/-- A world holding `freeWindow` and one camera, used by the C6 witness. -/
def freeWorld : World :=
  { window := Option.some freeWindow, state := ⟨0, 0⟩, reader_cursor := 0, motions := [],
    cameras := [{ translation := ⟨7, 8, 9⟩, rotation := ⟨1, 0, 0, 0⟩ }], log := [] }

/-- Witness for C6 with keys held while the cursor is free. -/
theorem ungrabbed_move_zero_witness :
    (freeWindow.cursor_grab_mode = CursorGrabMode.None
      ∧ freeWorld.window = Option.some freeWindow)
    ∧ (moveVelocityRaw freeWindow.cursor_grab_mode KeysBindings.default ⟨1, 0, 0⟩ ⟨0, 0, 1⟩
        [KeyCode.W, KeyCode.Space] = Vec3.zero
      ∧ (player_move KeysBindings.default MovementSettings.default [KeyCode.W, KeyCode.Space] 1
          freeWorld).cameras = freeWorld.cameras) := by
  have h : freeWindow.cursor_grab_mode = CursorGrabMode.None := rfl
  exact ⟨⟨h, rfl⟩,
    (ungrabbed_move_zero freeWindow KeysBindings.default MovementSettings.default
      [KeyCode.W, KeyCode.Space] 1 h).1 ⟨1, 0, 0⟩ ⟨0, 0, 1⟩,
    (ungrabbed_move_zero freeWindow KeysBindings.default MovementSettings.default
      [KeyCode.W, KeyCode.Space] 1 h).2.2 freeWorld rfl⟩

end

noncomputable section

/-! ### Structure of the player_look fold over cameras and events -/

theorem lookCamera_nil (window : Window) (sens : ℝ) (s : InputState) (t : Transform) :
    lookCamera window sens s [] t = (s, t) := rfl

theorem lookCamera_cons (window : Window) (sens : ℝ) (s : InputState) (ev : MouseMotion)
    (evs : List MouseMotion) (t : Transform) :
    lookCamera window sens s (ev :: evs) t
      = lookCamera window sens (lookEventStep window sens s ev).1 evs
          { t with rotation := (lookEventStep window sens s ev).2 } := rfl

theorem lookCamera_fst (window : Window) (sens : ℝ) :
    ∀ (evs : List MouseMotion) (s : InputState) (t : Transform),
      (lookCamera window sens s evs t).1 = lookRun window sens s evs := by
  intro evs
  induction evs with
  | nil => intro s t; rfl
  | cons ev evs ih =>
    intro s t
    rw [lookCamera_cons, lookRun_cons]
    exact ih _ _

theorem lookCamera_snd (window : Window) (sens : ℝ) :
    ∀ evs : List MouseMotion, evs ≠ [] → ∀ (s : InputState) (t : Transform),
      (lookCamera window sens s evs t).2
        = { t with rotation := lookRotation (lookRun window sens s evs) } := by
  intro evs
  induction evs with
  | nil => intro h; exact absurd rfl h
  | cons ev evs ih =>
    intro _ s t
    cases evs with
    | nil => rfl
    | cons ev2 evs2 =>
      rw [lookCamera_cons, ih (by simp) _ _]
      rfl

theorem lookFold_drained (window : Window) (sens : ℝ) (motions : List MouseMotion) :
    ∀ (cams : List Transform) (s : InputState) (acc : List Transform),
      cams.foldl (lookFoldStep window sens motions) (s, motions.length, acc)
        = (s, motions.length, acc ++ cams) := by
  intro cams
  induction cams with
  | nil => intro s acc; simp
  | cons t cams ih =>
    intro s acc
    rw [List.foldl_cons]
    have hstep : lookFoldStep window sens motions (s, motions.length, acc) t
        = (s, motions.length, acc ++ [t]) := by
      simp [lookFoldStep, List.drop_length, lookCamera_nil]
    rw [hstep, ih]
    simp

/-- `player_look` with a primary window and at least one camera: the first
camera drains all pending events and is rewritten by them, the remaining
cameras see an empty pending list and are returned unchanged, and the reader
cursor ends at the end of the motion log. -/
theorem player_look_cons (settings : MovementSettings) (w : World) (window : Window)
    (t : Transform) (rest : List Transform) (hw : w.window = Option.some window)
    (hc : w.cameras = t :: rest) :
    player_look settings w
      = { w with
          state := (lookCamera window settings.sensitivity w.state
            (w.motions.drop w.reader_cursor) t).1,
          reader_cursor := w.motions.length,
          cameras := (lookCamera window settings.sensitivity w.state
            (w.motions.drop w.reader_cursor) t).2 :: rest } := by
  simp only [player_look, hw, hc, List.foldl_cons]
  have hstep : lookFoldStep window settings.sensitivity w.motions
      (w.state, w.reader_cursor, ([] : List Transform)) t
      = ((lookCamera window settings.sensitivity w.state
            (w.motions.drop w.reader_cursor) t).1, w.motions.length,
         [(lookCamera window settings.sensitivity w.state
            (w.motions.drop w.reader_cursor) t).2]) := by
    simp [lookFoldStep]
  rw [hstep, lookFold_drained]
  rfl

theorem player_look_motions (settings : MovementSettings) (w : World) :
    (player_look settings w).motions = w.motions := by
  cases hw : w.window with
  | none => simp [player_look, hw]
  | some window => simp [player_look, hw]

/-! ### Look while the cursor is free -/

theorem lookEventStep_free_self (window : Window) (sens : ℝ) (s : InputState) (ev : MouseMotion)
    (hm : window.cursor_grab_mode = CursorGrabMode.None)
    (hp : s.pitch ∈ Set.Icc (-1.54 : ℝ) 1.54) :
    (lookEventStep window sens s ev).1 = s := by
  rw [lookEventStep_free window sens s ev hm, fclamp_eq_self _ _ _ hp.1 hp.2]

theorem lookRun_free (window : Window) (sens : ℝ)
    (hm : window.cursor_grab_mode = CursorGrabMode.None) :
    ∀ (evs : List MouseMotion) (s : InputState), s.pitch ∈ Set.Icc (-1.54 : ℝ) 1.54 →
      lookRun window sens s evs = s := by
  intro evs
  induction evs with
  | nil => intro s _; rfl
  | cons ev evs ih =>
    intro s hp
    rw [lookRun_cons, lookEventStep_free_self window sens s ev hm hp]
    exact ih s hp


theorem lookFold_state_free (window : Window) (sens : ℝ) (motions : List MouseMotion)
    (hm : window.cursor_grab_mode = CursorGrabMode.None) :
    ∀ (cams : List Transform) (s : InputState) (cur : ℕ) (acc : List Transform),
      s.pitch ∈ Set.Icc (-1.54 : ℝ) 1.54 →
      (cams.foldl (lookFoldStep window sens motions) (s, cur, acc)).1 = s := by
  intro cams
  induction cams with
  | nil => intro s cur acc _; rfl
  | cons t cams ih =>
    intro s cur acc hp
    rw [List.foldl_cons]
    have hstep : lookFoldStep window sens motions (s, cur, acc) t
        = (s, motions.length,
           acc ++ [(lookCamera window sens s (motions.drop cur) t).2]) := by
      simp only [lookFoldStep]
      rw [lookCamera_fst, lookRun_free window sens hm _ s hp]
    rw [hstep]
    exact ih s motions.length _ hp

theorem lookFold_cursor (window : Window) (sens : ℝ) (motions : List MouseMotion) :
    ∀ (cams : List Transform) (init : InputState × ℕ × List Transform), cams ≠ [] →
      (cams.foldl (lookFoldStep window sens motions) init).2.1 = motions.length := by
  intro cams
  induction cams with
  | nil => intro init h; exact absurd rfl h
  | cons t cams ih =>
    intro init _
    rw [List.foldl_cons]
    cases cams with
    | nil => rfl
    | cons t2 cams2 => exact ih _ (by simp)

/-- Claim C5: while the cursor grab state is free, processing any pending
motion deltas leaves the stored pitch/yaw unchanged (given the pitch
invariant), while the deltas are still consumed: with at least one camera the
reader cursor ends at the end of the motion log, so no event can be re-read
by a later call. -/
theorem ungrabbed_look_preserves_state (settings : MovementSettings) (w : World)
    (window : Window) (hw : w.window = Option.some window)
    (hm : window.cursor_grab_mode = CursorGrabMode.None)
    (hp : w.state.pitch ∈ Set.Icc (-1.54 : ℝ) 1.54) :
    (player_look settings w).state = w.state
    ∧ (player_look settings w).motions = w.motions
    ∧ (w.cameras ≠ [] →
        (player_look settings w).reader_cursor = w.motions.length
        ∧ (player_look settings w).motions.drop (player_look settings w).reader_cursor = []) := by
  refine ⟨?_, player_look_motions settings w, fun hc => ?_⟩
  · simp only [player_look, hw]
    exact lookFold_state_free window settings.sensitivity w.motions hm w.cameras w.state
      w.reader_cursor [] hp
  · have hcur : (player_look settings w).reader_cursor = w.motions.length := by
      simp only [player_look, hw]
      exact lookFold_cursor window settings.sensitivity w.motions w.cameras _ hc
    refine ⟨hcur, ?_⟩
    rw [player_look_motions settings w, hcur]
    exact List.drop_length w.motions

/-- A free-cursor world with one pending motion delta and one camera, used by
the C5 witness. -/
def freeLookWorld : World :=
  { window := Option.some freeWindow, state := ⟨0, 0⟩, reader_cursor := 0,
    motions := [⟨3, 4⟩],
    cameras := [{ translation := ⟨0, 0, 0⟩, rotation := ⟨1, 0, 0, 0⟩ }], log := [] }

/-- Witness for C5 on a concrete free-cursor world with a pending delta. -/
theorem ungrabbed_look_preserves_state_witness :
    (freeLookWorld.window = Option.some freeWindow
      ∧ freeWindow.cursor_grab_mode = CursorGrabMode.None
      ∧ freeLookWorld.state.pitch ∈ Set.Icc (-1.54 : ℝ) 1.54
      ∧ freeLookWorld.cameras ≠ [])
    ∧ ((player_look MovementSettings.default freeLookWorld).state = freeLookWorld.state
      ∧ (player_look MovementSettings.default freeLookWorld).reader_cursor
          = freeLookWorld.motions.length) := by
  have hp : freeLookWorld.state.pitch ∈ Set.Icc (-1.54 : ℝ) 1.54 := by
    norm_num [freeLookWorld]
  have hc : freeLookWorld.cameras ≠ [] := by
    simp [freeLookWorld]
  exact ⟨⟨rfl, rfl, hp, hc⟩,
    (ungrabbed_look_preserves_state MovementSettings.default freeLookWorld freeWindow
      rfl rfl hp).1,
    ((ungrabbed_look_preserves_state MovementSettings.default freeLookWorld freeWindow
      rfl rfl hp).2.2 hc).1⟩

/-- Claim C10: with a primary window and a single tagged camera, any non-empty
batch of pending motion events ends with the camera rotation rewritten to the
composed yaw-outer/pitch-inner quaternion of the resulting stored state,
whatever the grab mode; while free (with the pitch invariant) that stored
state is the unchanged one, so external rotations are overwritten; and with
zero pending events the camera (and state) are not written at all. -/
theorem motion_rewrites_rotation (settings : MovementSettings) (w : World) (window : Window)
    (t : Transform) (hw : w.window = Option.some window) (hc : w.cameras = [t]) :
    (w.motions.drop w.reader_cursor ≠ [] →
      (player_look settings w).cameras
        = [{ t with rotation := lookRotation (lookRun window settings.sensitivity w.state
              (w.motions.drop w.reader_cursor)) }])
    ∧ (window.cursor_grab_mode = CursorGrabMode.None →
        w.state.pitch ∈ Set.Icc (-1.54 : ℝ) 1.54 →
        w.motions.drop w.reader_cursor ≠ [] →
        (player_look settings w).cameras
          = [{ t with rotation := lookRotation w.state }])
    ∧ (w.motions.drop w.reader_cursor = [] →
        (player_look settings w).cameras = w.cameras
        ∧ (player_look settings w).state = w.state) := by
  have hmain : w.motions.drop w.reader_cursor ≠ [] →
      (player_look settings w).cameras
        = [{ t with rotation := lookRotation (lookRun window settings.sensitivity w.state
              (w.motions.drop w.reader_cursor)) }] := by
    intro hne
    rw [player_look_cons settings w window t [] hw hc]
    simp only [List.cons.injEq, and_true]
    rw [lookCamera_snd window settings.sensitivity _ hne]
  refine ⟨hmain, fun hm hp hne => ?_, fun he => ?_⟩
  · rw [hmain hne, lookRun_free window settings.sensitivity hm _ w.state hp]
  · rw [player_look_cons settings w window t [] hw hc]
    constructor
    · simp only [he, lookCamera_nil]
      rw [hc]
    · simp only [he, lookCamera_nil]

end

noncomputable section

/-- Witness for C10: a pending delta on a free-cursor world overwrites the
camera rotation with the composed quaternion of the unchanged state; a world
with no pending deltas leaves its camera untouched. -/
theorem motion_rewrites_rotation_witness :
    (freeLookWorld.motions.drop freeLookWorld.reader_cursor ≠ []
      ∧ freeWindow.cursor_grab_mode = CursorGrabMode.None
      ∧ freeLookWorld.state.pitch ∈ Set.Icc (-1.54 : ℝ) 1.54
      ∧ freeWorld.motions.drop freeWorld.reader_cursor = [])
    ∧ ((player_look MovementSettings.default freeLookWorld).cameras
        = [{ ({ translation := ⟨0, 0, 0⟩, rotation := ⟨1, 0, 0, 0⟩ } : Transform) with
            rotation := lookRotation freeLookWorld.state }]
      ∧ (player_look MovementSettings.default freeWorld).cameras = freeWorld.cameras) := by
  have hne : freeLookWorld.motions.drop freeLookWorld.reader_cursor ≠ [] := by
    simp [freeLookWorld]
  have hp : freeLookWorld.state.pitch ∈ Set.Icc (-1.54 : ℝ) 1.54 := by
    norm_num [freeLookWorld]
  have he : freeWorld.motions.drop freeWorld.reader_cursor = [] := by
    simp [freeWorld]
  exact ⟨⟨hne, rfl, hp, he⟩,
    (motion_rewrites_rotation MovementSettings.default freeLookWorld freeWindow
      { translation := ⟨0, 0, 0⟩, rotation := ⟨1, 0, 0, 0⟩ } rfl rfl).2.1 rfl hp hne,
    ((motion_rewrites_rotation MovementSettings.default freeWorld freeWindow
      { translation := ⟨7, 8, 9⟩, rotation := ⟨1, 0, 0, 0⟩ } rfl rfl).2.2 he).1⟩

/-! ### Edge-triggered grab toggle -/

theorem runGrabTicks_cons (kb : KeysBindings) (jp : List KeyCode) (ticks : List (List KeyCode))
    (w : World) :
    runGrabTicks kb (jp :: ticks) w = runGrabTicks kb ticks (cursor_grab kb jp w) := rfl

theorem heldKeyTicks_succ (k : KeyCode) (m : ℕ) :
    heldKeyTicks k (m + 1) = [k] :: List.replicate m [] := rfl

theorem cursor_grab_no_toggle (kb : KeysBindings) (jp : List KeyCode) (w : World)
    (window : Window) (hw : w.window = Option.some window)
    (h : kb.toggle_grab_cursor ∉ jp) : cursor_grab kb jp w = w := by
  simp only [cursor_grab, hw]
  rw [if_neg h]

theorem cursor_grab_press (kb : KeysBindings) (w : World) (window : Window)
    (hw : w.window = Option.some window) :
    cursor_grab kb [kb.toggle_grab_cursor] w
      = { w with window := Option.some (toggle_grab_cursor window) } := by
  simp only [cursor_grab, hw]
  rw [if_pos (List.mem_singleton_self _)]

theorem runGrabTicks_no_toggle (kb : KeysBindings) :
    ∀ (ticks : List (List KeyCode)) (w : World) (window : Window),
      w.window = Option.some window →
      (∀ jp ∈ ticks, kb.toggle_grab_cursor ∉ jp) → runGrabTicks kb ticks w = w := by
  intro ticks
  induction ticks with
  | nil => intro w window _ _; rfl
  | cons jp ticks ih =>
    intro w window hw h
    rw [runGrabTicks_cons,
      cursor_grab_no_toggle kb jp w window hw (h jp (List.mem_cons_self _ _))]
    exact ih w window hw (fun j hj => h j (List.mem_cons_of_mem _ hj))

/-- Claim C7: holding the bound toggle key across `n` consecutive ticks
without releasing it flips the cursor grab state exactly once (the final
window is the once-toggled window), and any tick sequence never just-pressing
the toggle key leaves the world untouched, whatever other keys it presses. -/
theorem grab_toggle_edge_triggered (kb : KeysBindings) (w : World) (window : Window)
    (hw : w.window = Option.some window) (n : ℕ) (hn : 1 ≤ n) :
    (runGrabTicks kb (heldKeyTicks kb.toggle_grab_cursor n) w).window
        = Option.some (toggle_grab_cursor window)
    ∧ ∀ ticks : List (List KeyCode), (∀ jp ∈ ticks, kb.toggle_grab_cursor ∉ jp) →
        runGrabTicks kb ticks w = w := by
  constructor
  · obtain ⟨m, rfl⟩ : ∃ m, n = m + 1 := ⟨n - 1, (Nat.succ_pred_eq_of_pos hn).symm⟩
    rw [heldKeyTicks_succ, runGrabTicks_cons, cursor_grab_press kb w window hw,
      runGrabTicks_no_toggle kb (List.replicate m [])
        { w with window := Option.some (toggle_grab_cursor window) }
        (toggle_grab_cursor window) rfl
        (fun jp hjp => by rw [List.eq_of_mem_replicate hjp]; exact List.not_mem_nil _)]
  · exact fun ticks h => runGrabTicks_no_toggle kb ticks w window hw h

/-- A free-cursor window for the C7 witness. -/
def grabWindow : Window := ⟨800, 600, CursorGrabMode.None, true⟩

/-- A world holding `grabWindow`, used by the C7 witness. -/
def grabWorld : World :=
  { window := Option.some grabWindow, state := ⟨0, 0⟩, reader_cursor := 0, motions := [],
    cameras := [], log := [] }

/-- Witness for C7: holding Escape for five ticks toggles the grab state
exactly once. -/
theorem grab_toggle_edge_triggered_witness :
    (grabWorld.window = Option.some grabWindow ∧ 1 ≤ 5)
    ∧ ((runGrabTicks KeysBindings.default
          (heldKeyTicks KeysBindings.default.toggle_grab_cursor 5) grabWorld).window
        = Option.some (toggle_grab_cursor grabWindow)
      ∧ ∀ ticks : List (List KeyCode),
          (∀ jp ∈ ticks, KeysBindings.default.toggle_grab_cursor ∉ jp) →
          runGrabTicks KeysBindings.default ticks grabWorld = grabWorld) :=
  ⟨⟨rfl, by norm_num⟩,
    (grab_toggle_edge_triggered KeysBindings.default grabWorld grabWindow rfl 5
      (by norm_num)).1,
    (grab_toggle_edge_triggered KeysBindings.default grabWorld grabWindow rfl 5
      (by norm_num)).2⟩

/-! ### Multi-camera behavior of the per-tick systems -/

/-- A camera transform whose rotation is not the identity quaternion. -/
def camZ : Transform := { translation := ⟨0, 0, 0⟩, rotation := ⟨0, 0, 0, 1⟩ }

/-- A grabbed world with two tagged cameras and one pending motion delta. -/
def twoCamWorld : World :=
  { window := Option.some hdWindow, state := ⟨0, 0⟩, reader_cursor := 0,
    motions := [⟨0, 0⟩], cameras := [camZ, camZ], log := [] }

/-- Counterexample to C8 as stated: with two tagged cameras and one pending
motion delta, `player_look` rewrites only the first camera's rotation (to the
identity quaternion here); the second camera keeps its old, different
rotation, so the same look rotation is not applied to every tagged entity. -/
theorem look_two_cameras_counterexample :
    ((player_look MovementSettings.default twoCamWorld).cameras.map Transform.rotation)
      = [⟨1, 0, 0, 0⟩, ⟨0, 0, 0, 1⟩]
    ∧ ((⟨1, 0, 0, 0⟩ : Quat) ≠ ⟨0, 0, 0, 1⟩) := by
  constructor
  · rw [player_look_cons MovementSettings.default twoCamWorld hdWindow camZ [camZ] rfl rfl]
    have hne : twoCamWorld.motions.drop twoCamWorld.reader_cursor ≠ [] := by
      simp [twoCamWorld]
    rw [lookCamera_snd hdWindow MovementSettings.default.sensitivity _ hne]
    have hstate : lookRun hdWindow MovementSettings.default.sensitivity twoCamWorld.state
        (twoCamWorld.motions.drop twoCamWorld.reader_cursor) = ⟨0, 0⟩ := by
      show lookRun hdWindow MovementSettings.default.sensitivity ⟨0, 0⟩ [⟨0, 0⟩] = ⟨0, 0⟩
      rw [lookRun_cons, lookRun_nil,
        lookEventStep_grabbed _ _ _ _ (by simp [hdWindow])]
      norm_num [toRadians, fclamp, MovementSettings.default]
    rw [hstate]
    have hrot : lookRotation ⟨0, 0⟩ = (⟨1, 0, 0, 0⟩ : Quat) := by
      simp [lookRotation, Quat.fromAxisAngle, Quat.mul, Vec3.X, Vec3.Y]
    rw [hrot]
    simp [camZ]
  · intro hc
    have := congrArg Quat.w hc
    norm_num at this

/-- Claim C8 amended: with a primary window, `player_move` applies its
per-camera computation to every tagged camera found (zero, one, or many),
each from its own transform; `player_look` applies the tick's pending motion
deltas only to the first camera the query yields, and returns every further
camera unchanged (the events were already consumed). -/
theorem per_camera_application (settings : MovementSettings) (kb : KeysBindings)
    (pressed : List KeyCode) (dt : ℝ) (w : World) (window : Window)
    (hw : w.window = Option.some window) :
    (player_move kb settings pressed dt w).cameras
        = w.cameras.map (player_move_camera window kb settings pressed dt)
    ∧ ∀ (t : Transform) (rest : List Transform), w.cameras = t :: rest →
        (player_look settings w).cameras
          = (lookCamera window settings.sensitivity w.state
              (w.motions.drop w.reader_cursor) t).2 :: rest := by
  constructor
  · simp [player_move, hw]
  · intro t rest hc
    rw [player_look_cons settings w window t rest hw hc]

/-- Witness for C8's amended statement on the two-camera world. -/
theorem per_camera_application_witness :
    (twoCamWorld.window = Option.some hdWindow ∧ twoCamWorld.cameras = camZ :: [camZ])
    ∧ ((player_move KeysBindings.default MovementSettings.default [KeyCode.W] 1
          twoCamWorld).cameras
        = twoCamWorld.cameras.map
            (player_move_camera hdWindow KeysBindings.default MovementSettings.default
              [KeyCode.W] 1)
      ∧ (player_look MovementSettings.default twoCamWorld).cameras
        = (lookCamera hdWindow MovementSettings.default.sensitivity twoCamWorld.state
            (twoCamWorld.motions.drop twoCamWorld.reader_cursor) camZ).2 :: [camZ]) :=
  ⟨⟨rfl, rfl⟩,
    (per_camera_application MovementSettings.default KeysBindings.default [KeyCode.W] 1
      twoCamWorld hdWindow rfl).1,
    (per_camera_application MovementSettings.default KeysBindings.default [KeyCode.W] 1
      twoCamWorld hdWindow rfl).2 camZ [camZ] rfl⟩

end
